import Mathlib

/-!
Shallow embedding of the circadian statistics engine of the Anvil
repository (anvil/circadian.py, class CircadianAnalysis).

Modelling conventions:
* Python floats are modelled as exact rationals (ℚ).  A numpy-float
  division whose denominator is zero yields NaN (for the 0/0 cases
  occurring here); this is modelled by the sum type `PyFloat` with a
  `nan` constructor.
* Python integer division by zero raises `ZeroDivisionError`; code that
  can raise is modelled in `Except String`, the string naming the
  exception class.  The builtin `sum` of an EMPTY series is the Python
  int 0, so in `inter_daily_stability` / `intra_daily_variability` the
  division is int 0 / int 0 — raising `ZeroDivisionError` — exactly
  when the input slice is empty, and a numpy-float division otherwise;
  both definitions branch on emptiness to reproduce this.
* A pandas DataFrame is a list of records; a column is a field.
  `df.groupby(col)` iterates over the distinct keys in ascending order
  (pandas sorts group keys), each group being the sub-list of rows with
  that key.  `Series.mean` is `listMean`, `Series.std` (ddof = 1) is
  the square root of `sampleVar`.
* `Series.std()` applied to a series of length ≤ 1 yields NaN.  Any
  comparison against NaN is false, which the relevant definitions
  reproduce by an explicit length test (documented at each site).
* Standard deviations are irrational, so conditions of the source of
  the shape `|z - mean| ≤ 1.5·std` are embedded in the equivalent
  squared form `(z - mean)^2 ≤ 1.5^2 · var`, and `std < 0.5` as
  `var < 0.5^2` (std = √var ≥ 0).  Theorems about these definitions
  relate them back to the `Real.sqrt` formulation.
-/

namespace Anvil

/-- A timestamp: a day index (days since an arbitrary epoch) plus a
wall-clock hour and minute.  Models Python `datetime`/pandas `Timestamp`
at minute resolution, which is all the source reads
(`z.hour`, `z.minute`, and comparisons against day boundaries). -/
structure Timestamp where
  day : ℤ
  hour : ℕ
  minute : ℕ
deriving DecidableEq, Repr

/-- Lexicographic order on timestamps: Python datetime `<=`. -/
def tsLe (a b : Timestamp) : Bool :=
  decide (a.day < b.day ∨ (a.day = b.day ∧
    (a.hour < b.hour ∨ (a.hour = b.hour ∧ a.minute ≤ b.minute))))

/-- Lexicographic order on timestamps: Python datetime `<`. -/
def tsLt (a b : Timestamp) : Bool :=
  decide (a.day < b.day ∨ (a.day = b.day ∧
    (a.hour < b.hour ∨ (a.hour = b.hour ∧ a.minute < b.minute))))

/-- Midnight at the start of day `d`: `datetime.date`/midnight datetime
used as a window boundary. -/
def tsOfDate (d : ℤ) : Timestamp := ⟨d, 0, 0⟩

/-- Pandas `Series.mean()` of a list of floats: sum divided by length.
(For the empty list pandas gives NaN; every use below is guarded so
that this case never reaches a NaN-sensitive spot, see each site.) -/
def listMean (l : List ℚ) : ℚ := l.sum / l.length

/-- The square of pandas `Series.std()` (sample variance, ddof = 1):
`Σ (x - mean)² / (n - 1)`.  `Series.std()` itself is `√sampleVar`,
irrational in general, hence only its square is a definition here. -/
def sampleVar (l : List ℚ) : ℚ :=
  (l.map (fun x => (x - listMean l) ^ 2)).sum / ((l.length : ℚ) - 1)

/-- CircadianAnalysis._convert_timestamp_to_decimal (applied pointwise):
`z.hour + z.minute/60`. -/
def convert_timestamp_to_decimal (series : List Timestamp) : List ℚ :=
  series.map (fun z => (z.hour : ℚ) + (z.minute : ℚ) / 60)

/-- CircadianAnalysis._purge_srm_outliers: keep the points `z` with
`lower_limit ≤ z ≤ upper_limit`. -/
def purge_srm_outliers (series : List ℚ) (lower_limit upper_limit : ℚ) :
    List ℚ :=
  series.filter (fun z => decide (lower_limit ≤ z) && decide (z ≤ upper_limit))

/-- CircadianAnalysis._srm_preprocssing (sic): convert to decimal time,
then drop points outside `mean ± 1.5·std` unless `std < 0.5`.

For a series of length ≤ 1, `Series.std()` is NaN: `NaN < 0.5` is false,
so the source falls through to the purge with NaN limits, and every
comparison against the NaN limits is false — the result is empty.

For length ≥ 2 the source's conditions are embedded squared:
`std < 0.5  ⟺  var < 0.5²` and
`mean − 1.5·std ≤ z ≤ mean + 1.5·std  ⟺  (z − mean)² ≤ 1.5²·var`
(the call to `_purge_srm_outliers` with limits `mean ∓ 1.5·std` is
inlined in this squared form, since the limits are irrational). -/
def srm_preprocssing (series : List Timestamp) : List ℚ :=
  let s := convert_timestamp_to_decimal series
  if s.length ≤ 1 then []
  else if sampleVar s < (1 / 2) ^ 2 then s
  else s.filter (fun z => decide ((z - listMean s) ^ 2 ≤ (3 / 2) ^ 2 * sampleVar s))

/-- CircadianAnalysis._calculate_srm_hit: the number of values falling
within `[lower_limit, upper_limit]` (`sum` of a boolean map). -/
def calculate_srm_hit (series : List ℚ) (lower_limit upper_limit : ℚ) : ℕ :=
  (series.filter
    (fun z => decide (lower_limit ≤ z) && decide (z ≤ upper_limit))).length

/-- Ascending insertion into a sorted, duplicate-free list of keys. -/
def insertKey (k : ℕ) : List ℕ → List ℕ
  | [] => [k]
  | x :: xs =>
      if k < x then k :: x :: xs
      else if k = x then x :: xs
      else x :: insertKey k xs

/-- The distinct keys of a column, in ascending order: the iteration
order of pandas `df.groupby(col)` (group keys are sorted). -/
def sortedKeys (l : List ℕ) : List ℕ := l.foldr insertKey []

/-- One event row of the SRM input frame: columns `user_id`,
`target_col` and `time_col` (categories and users as numeric codes). -/
structure SRow where
  user : ℕ
  target : ℕ
  time : Timestamp
deriving DecidableEq, Repr

/-- The `time_col` entries of the group of `df` with target key `k`
(`v.loc[:, time_col]` for the group `v`). -/
def srmGroup (df : List SRow) (k : ℕ) : List Timestamp :=
  (df.filter (fun r => decide (r.target = k))).map (fun r => r.time)

/-- Loop body of `calculate_srm` for one target group: preprocess; if
the purged sample count reaches `min_samples`, count the hits within
`mean ± 45/60` of the purged mean; otherwise contribute nothing. -/
def srmHitForGroup (df : List SRow) (min_samples : ℕ) (k : ℕ) : Option ℕ :=
  let series := srm_preprocssing (srmGroup df k)
  if min_samples ≤ series.length then
    let mean := listMean series
    some (calculate_srm_hit series (mean - 45 / 60) (mean + 45 / 60))
  else none

/-- The list `l` accumulated by `calculate_srm`: one hit count per
qualifying target group, in ascending target-key order. -/
def srmHits (df : List SRow) (min_samples : ℕ) : List ℕ :=
  (sortedKeys (df.map (fun r => r.target))).filterMap
    (srmHitForGroup df min_samples)

/-- CircadianAnalysis.calculate_srm: `sum(l)/len(l)` over the hit counts
of the qualifying target groups.  `sum` and `len` are Python ints, so a
zero-length `l` raises `ZeroDivisionError` (true division). -/
def calculate_srm (df : List SRow) (min_samples : ℕ) : Except String ℚ :=
  let l := srmHits df min_samples
  if l.length = 0 then Except.error "ZeroDivisionError"
  else Except.ok (((l.map (fun h : ℕ => (h : ℚ))).sum) / (l.length : ℚ))

/-- One output row of `calculate_srm_across_users`. -/
structure UserSrm where
  user : ℕ
  srm : ℚ
deriving DecidableEq, Repr

/-- CircadianAnalysis.calculate_srm_across_users: one `calculate_srm`
per user group (ascending user key); an exception in any group
propagates to the caller. -/
def calculate_srm_across_users (df : List SRow) (min_samples : ℕ) :
    Except String (List UserSrm) :=
  (sortedKeys (df.map (fun r => r.user))).mapM
    (fun k =>
      (calculate_srm (df.filter (fun r => decide (r.user = k))) min_samples).map
        (fun q => UserSrm.mk k q))

/-- One output row of `rolling_srm_across_users`: a `UserSrm` labelled
with the window start date (`df_w['date'] = s.date()`). -/
structure TaggedRow where
  user : ℕ
  srm : ℚ
  date : ℤ
deriving DecidableEq, Repr

/-- CircadianAnalysis.rolling_srm_across_users.

`srm_df` starts as `None`; each iteration `i < how_many_days` takes the
window `[start_date + i, start_date + i + 7)` (day units, half-open via
the timestamp comparisons `z >= s and z < e`), computes the per-user
SRM table of the window, labels it with the window start date, and
appends it (`pd.concat` drops a `None` accumulator silently).  With
zero iterations the accumulator `None` itself is returned. -/
def rolling_srm_across_users (df : List SRow) (start_date : ℤ)
    (how_many_days : ℕ) (min_samples : ℕ) :
    Except String (Option (List TaggedRow)) :=
  (List.range how_many_days).foldlM
    (fun srm_df i => do
      let s : ℤ := start_date + (i : ℤ)
      let e : ℤ := s + 7
      let w := df.filter (fun r => tsLe (tsOfDate s) r.time && tsLt r.time (tsOfDate e))
      let df_w ← calculate_srm_across_users w min_samples
      pure (some (srm_df.getD [] ++ df_w.map (fun u => TaggedRow.mk u.user u.srm s))))
    none

/-- A numpy float: either an ordinary (exactly represented) number or
the NaN produced by the 0/0 divisions reachable in this code. -/
inductive PyFloat where
  | num (q : ℚ)
  | nan
deriving DecidableEq, Repr

/-- One event row of the IS input frame: columns `hour_col` (hour of
day) and `value_col`. -/
structure HRow where
  hour : ℕ
  value : ℚ
deriving DecidableEq, Repr

/-- CircadianAnalysis.inter_daily_stability:
`N · Σ_h (mean_h − mean)² / (24 · Σ_i (x_i − mean)²)`.
On the empty frame both sums are the builtin `sum` of an empty
sequence — the Python int 0 — so `nom/denominator` is int `0/0` and
raises `ZeroDivisionError`.  On a nonempty frame the sums are numpy
floats; when the denominator sum is zero the numerator is forced to
zero as well (every value equals the mean, so every group mean equals
the mean), and float `0/0` is NaN — no exception is raised. -/
def inter_daily_stability (df : List HRow) : Except String PyFloat :=
  let values := df.map (fun r => r.value)
  let mean := listMean values
  let N : ℚ := df.length
  let denom_sum_val := (values.map (fun x => (x - mean) ^ 2)).sum
  let denominator := 24 * denom_sum_val
  let l := (sortedKeys (df.map (fun r => r.hour))).map
    (fun k => (listMean ((df.filter (fun r => decide (r.hour = k))).map
      (fun r => r.value)) - mean) ^ 2)
  let nom := l.sum * N
  if df.length = 0 then Except.error "ZeroDivisionError"
  else if denominator = 0 then Except.ok PyFloat.nan
  else Except.ok (PyFloat.num (nom / denominator))

/-- CircadianAnalysis.intra_daily_variability on the `value_col` column
(one float per row, already sorted by date per the documented
precondition): `N · Σ_t (x_t − x_{t−1})² / ((N−1) · Σ_i (x_i − mean)²)`,
the first difference contributing zero (`shift(1)` then `fillna(0)`).
On the empty slice both sums are the builtin `sum` of an empty
sequence — the Python int 0 — so `nom/denom` is int `0/0` and raises
`ZeroDivisionError`.  On a nonempty slice the sums are numpy floats;
when the denominator is zero (N = 1 or constant values) the numerator
is zero too and float `0/0` is NaN — no exception is raised. -/
def intra_daily_variability (values : List ℚ) : Except String PyFloat :=
  let s := ((values.zip values.tail).map (fun p => (p.2 - p.1) ^ 2)).sum
  let nom := (values.length : ℚ) * s
  let mean := listMean values
  let denom := ((values.length : ℚ) - 1) *
    ((values.map (fun x => (x - mean) ^ 2)).sum)
  if values.length = 0 then Except.error "ZeroDivisionError"
  else if denom = 0 then Except.ok PyFloat.nan
  else Except.ok (PyFloat.num (nom / denom))

/-- Modelled from the spec (§4.4 / §8, the "same thresholding logic"
reapplied in the single-pass claim): one pass of the SRM thresholding
over an already-decimal sample list — recompute mean/std, return the
list unchanged if `std < 0.5`, otherwise keep exactly the values within
`mean ± 1.5·std` (length ≤ 1: std is NaN and the purge empties the
list, as in `srm_preprocssing`).  Same squared embedding as there. -/
def thresholdPass (s : List ℚ) : List ℚ :=
  if s.length ≤ 1 then []
  else if sampleVar s < (1 / 2) ^ 2 then s
  else s.filter (fun z => decide ((z - listMean s) ^ 2 ≤ (3 / 2) ^ 2 * sampleVar s))

/-! ### Basic lemmas about the embedding -/

theorem mem_insertKey {a k : ℕ} {l : List ℕ} :
    a ∈ insertKey k l ↔ a = k ∨ a ∈ l := by
  induction l with
  | nil => simp [insertKey]
  | cons x xs ih =>
      by_cases h1 : k < x
      · simp [insertKey, h1]
      · by_cases h2 : k = x
        · subst h2
          have he : insertKey k (k :: xs) = k :: xs := by
            simp [insertKey, h1]
          rw [he]
          simp only [List.mem_cons]
          tauto
        · simp [insertKey, h1, h2, ih]
          tauto

theorem mem_sortedKeys {a : ℕ} {l : List ℕ} :
    a ∈ sortedKeys l ↔ a ∈ l := by
  induction l with
  | nil => simp [sortedKeys]
  | cons x xs ih =>
      simp only [sortedKeys, List.foldr_cons] at *
      rw [mem_insertKey, ih]
      simp

/-! ### Claims -/

/-- Concrete input for C1: a single target (code 0) completed at
08:00, 08:06, 07:54, 08:12 and 08:00 — decimal hours
8.00, 8.10, 7.90, 8.20, 8.00. -/
def dfC1 : List SRow :=
  [⟨0, 0, ⟨0, 8, 0⟩⟩, ⟨0, 0, ⟨1, 8, 6⟩⟩, ⟨0, 0, ⟨2, 7, 54⟩⟩,
   ⟨0, 0, ⟨3, 8, 12⟩⟩, ⟨0, 0, ⟨4, 8, 0⟩⟩]

/-- C1: for a single-target event slice whose timestamps convert to the
decimal hours [8.00, 8.10, 7.90, 8.20, 8.00], `calculate_srm` with
`min_samples = 3` preprocesses the slice to exactly those five values
(std ≈ 0.114 < 0.5, so no purge), computes mean 8.04 and tolerance
window [7.29, 8.79], counts all 5 samples as hits, and — exactly one
target qualifying — returns the aggregate SRM score 5.0. -/
theorem claim_C1_srm_worked_example :
    srm_preprocssing (srmGroup dfC1 0) = [8, 81/10, 79/10, 41/5, 8] ∧
    listMean [8, 81/10, 79/10, (41 : ℚ)/5, 8] = 201/25 ∧
    (201 : ℚ)/25 - 45/60 = 729/100 ∧
    (201 : ℚ)/25 + 45/60 = 879/100 ∧
    calculate_srm_hit [8, 81/10, 79/10, 41/5, 8] (729/100) (879/100) = 5 ∧
    calculate_srm dfC1 3 = Except.ok 5 := by
  refine ⟨?_, by norm_num [listMean], by norm_num, by norm_num, ?_, ?_⟩
  · norm_num [srm_preprocssing, convert_timestamp_to_decimal, srmGroup,
      dfC1, sampleVar, listMean, List.filter]
  · norm_num [calculate_srm_hit, List.filter]
  · norm_num [calculate_srm, srmHits, srmHitForGroup, srmGroup, dfC1,
      sortedKeys, insertKey, srm_preprocssing, convert_timestamp_to_decimal,
      sampleVar, listMean, calculate_srm_hit, List.filter, List.filterMap]

/-- C10: with `how_many_days = 0` the window loop body never runs, the
accumulator keeps its initial value `None`, and
`rolling_srm_across_users` returns Python `None` (modelled `none`),
not an empty result table. -/
theorem claim_C10_rolling_zero_days (df : List SRow) (start_date : ℤ)
    (min_samples : ℕ) :
    rolling_srm_across_users df start_date 0 min_samples =
      Except.ok none := rfl

/-- C2: with two rolling days the output is the per-user SRM table of
the half-open window `[start, start + 7)` tagged with date `start`,
followed (in that order) by the table of `[start + 1, (start + 1) + 7)`
tagged `start + 1`; window `i` selects exactly the events with
`start + i ≤ t < start + i + 7`.  With `start` = 2021-01-01 the two
tags are 2021-01-01 and 2021-01-02, ascending. -/
theorem claim_C2_rolling_two_windows (df : List SRow) (start_date : ℤ)
    (min_samples : ℕ) :
    rolling_srm_across_users df start_date 2 min_samples =
      (calculate_srm_across_users
          (df.filter (fun r => tsLe (tsOfDate start_date) r.time &&
            tsLt r.time (tsOfDate (start_date + 7)))) min_samples).bind
        (fun d0 =>
          (calculate_srm_across_users
              (df.filter (fun r => tsLe (tsOfDate (start_date + 1)) r.time &&
                tsLt r.time (tsOfDate (start_date + 1 + 7)))) min_samples).map
            (fun d1 =>
              some (d0.map (fun u => TaggedRow.mk u.user u.srm start_date) ++
                d1.map (fun u => TaggedRow.mk u.user u.srm (start_date + 1))))) := by
  have h2 : List.range 2 = [0, 1] := rfl
  unfold rolling_srm_across_users
  rw [h2]
  simp only [List.foldlM, Nat.cast_zero, Nat.cast_one, add_zero, bind,
    Except.bind, Option.getD]
  cases h0 : calculate_srm_across_users
      (df.filter (fun r => tsLe (tsOfDate start_date) r.time &&
        tsLt r.time (tsOfDate (start_date + 7)))) min_samples with
  | error e => simp [Except.map]
  | ok d0 =>
      cases h1 : calculate_srm_across_users
          (df.filter (fun r => tsLe (tsOfDate (start_date + 1)) r.time &&
            tsLt r.time (tsOfDate (start_date + 1 + 7)))) min_samples with
      | error e => simp [Except.map, pure, Except.pure]
      | ok d1 => simp [Except.map, pure, Except.pure]

/-- C9: on an event slice with nonzero variance in the value column in
which every hour group's mean equals the global mean,
`inter_daily_stability` returns 0 (every numerator term vanishes, the
denominator does not). -/
theorem claim_C9_is_zero_when_hourly_means_equal_global (df : List HRow)
    (hvar : ((df.map (fun r => r.value)).map
      (fun x => (x - listMean (df.map (fun r => r.value))) ^ 2)).sum ≠ 0)
    (hmean : ∀ k ∈ df.map (fun r => r.hour),
      listMean ((df.filter (fun r => decide (r.hour = k))).map (fun r => r.value)) =
        listMean (df.map (fun r => r.value))) :
    inter_daily_stability df = Except.ok (PyFloat.num 0) := by
  have hlen : ¬ df.length = 0 := by
    intro h0
    rcases List.length_eq_zero.mp h0 with rfl
    simp [listMean] at hvar
  unfold inter_daily_stability
  have hden : (24 : ℚ) * ((df.map (fun r => r.value)).map
      (fun x => (x - listMean (df.map (fun r => r.value))) ^ 2)).sum ≠ 0 := by
    exact mul_ne_zero (by norm_num) hvar
  simp only [hlen, if_false, hden, if_neg hden, if_neg hlen]
  have hsum : ((sortedKeys (df.map (fun r => r.hour))).map
      (fun k => (listMean ((df.filter (fun r => decide (r.hour = k))).map
        (fun r => r.value)) - listMean (df.map (fun r => r.value))) ^ 2)).sum = 0 := by
    apply List.sum_eq_zero
    intro x hx
    rcases List.mem_map.mp hx with ⟨k, hk, rfl⟩
    rw [hmean k (mem_sortedKeys.mp hk)]
    ring
  rw [hsum]
  norm_num

/-- Concrete input for the C9 witness: hours 0 and 1, values 1,3 in
hour 0 and 3,1 in hour 1 — each hourly mean is 2, the global mean is 2,
and the variance sum is 4 ≠ 0. -/
def dfC9 : List HRow := [⟨0, 1⟩, ⟨0, 3⟩, ⟨1, 3⟩, ⟨1, 1⟩]

/-- Witness for C9 at `dfC9`. -/
theorem claim_C9_witness :
    (((dfC9.map (fun r => r.value)).map
      (fun x => (x - listMean (dfC9.map (fun r => r.value))) ^ 2)).sum ≠ 0) ∧
    inter_daily_stability dfC9 = Except.ok (PyFloat.num 0) := by
  constructor
  · norm_num [dfC9, listMean]
  · apply claim_C9_is_zero_when_hourly_means_equal_global
    · norm_num [dfC9, listMean]
    · intro k hk
      have : k = 0 ∨ k = 1 := by
        simpa [dfC9] using hk
      rcases this with rfl | rfl
      · norm_num [dfC9, listMean, List.filter]
      · norm_num [dfC9, listMean, List.filter]

/-- Constant-valued IS input for C3: three hours, value 5 everywhere,
so the variance denominator sum is zero. -/
def dfC3 : List HRow := [⟨0, 5⟩, ⟨1, 5⟩, ⟨2, 5⟩]

/-- Counterexample to C3 as stated: on constant-valued (nonempty) input
`inter_daily_stability` evaluates to the returned value NaN — the
source merely divides numpy floats there, and the repository defines
no `InsufficientDataError` at all — and `intra_daily_variability`
likewise returns NaN on a single-point slice and on constant input.
No error is raised to the caller on these inputs. -/
theorem claim_C3_counterexample :
    inter_daily_stability dfC3 = Except.ok PyFloat.nan ∧
    intra_daily_variability [5] = Except.ok PyFloat.nan ∧
    intra_daily_variability [5, 5] = Except.ok PyFloat.nan := by
  refine ⟨?_, ?_, ?_⟩
  · norm_num [inter_daily_stability, dfC3, listMean, sortedKeys, insertKey,
      List.filter]
  · norm_num [intra_daily_variability, listMean]
  · norm_num [intra_daily_variability, listMean]

/-- C3 amended: on a NONEMPTY slice whose variance denominator sum is
zero (`inter_daily_stability` on constant input), or a nonempty slice
with zero denominator (`intra_daily_variability` with N = 1 or constant
values), the operation returns NaN — silently, without raising any
error; only on the EMPTY slice, where the builtin sums are Python ints,
does either operation raise, and then it is a bare `ZeroDivisionError`,
not an `InsufficientDataError` (which the repository never defines). -/
theorem claim_C3_amended_is_iv_nan (df : List HRow) (values : List ℚ)
    (hdf : df ≠ []) (hvals : values ≠ [])
    (h1 : ((df.map (fun r => r.value)).map
      (fun x => (x - listMean (df.map (fun r => r.value))) ^ 2)).sum = 0)
    (h2 : ((values.length : ℚ) - 1) *
      ((values.map (fun x => (x - listMean values) ^ 2)).sum) = 0) :
    (inter_daily_stability df = Except.ok PyFloat.nan ∧
      intra_daily_variability values = Except.ok PyFloat.nan) ∧
    (inter_daily_stability [] = Except.error "ZeroDivisionError" ∧
      intra_daily_variability [] = Except.error "ZeroDivisionError") := by
  refine ⟨⟨?_, ?_⟩, rfl, rfl⟩
  · have hlen : ¬ df.length = 0 := fun h => hdf (List.length_eq_zero.mp h)
    unfold inter_daily_stability
    rw [List.map_map] at h1
    simp [hlen, h1]
  · have hlen : ¬ values.length = 0 := fun h => hvals (List.length_eq_zero.mp h)
    unfold intra_daily_variability
    simp [hlen, h2]

/-- Witness for the amended C3 at `dfC3` and the single-point slice. -/
theorem claim_C3_amended_witness :
    dfC3 ≠ [] ∧ [(5 : ℚ)] ≠ [] ∧
    (((dfC3.map (fun r => r.value)).map
      (fun x => (x - listMean (dfC3.map (fun r => r.value))) ^ 2)).sum = 0) ∧
    ((([(5 : ℚ)].length : ℚ) - 1) *
      (([(5 : ℚ)].map (fun x => (x - listMean [(5 : ℚ)]) ^ 2)).sum) = 0) ∧
    ((inter_daily_stability dfC3 = Except.ok PyFloat.nan ∧
        intra_daily_variability [5] = Except.ok PyFloat.nan) ∧
      (inter_daily_stability [] = Except.error "ZeroDivisionError" ∧
        intra_daily_variability [] = Except.error "ZeroDivisionError")) := by
  refine ⟨by simp [dfC3], by simp, by norm_num [dfC3, listMean], by norm_num, ?_⟩
  exact claim_C3_amended_is_iv_nan dfC3 [5] (by simp [dfC3]) (by simp)
    (by norm_num [dfC3, listMean]) (by norm_num)

/-- Input for C4: a single target with only two samples, so with
`min_samples = 3` no target qualifies. -/
def dfC4 : List SRow := [⟨0, 0, ⟨0, 8, 0⟩⟩, ⟨0, 0, ⟨1, 9, 0⟩⟩]

/-- Counterexample to C4 as stated: with zero qualifying targets
`calculate_srm` raises `ZeroDivisionError` — the bare Python
`sum(l)/len(l)` with `len(l) = 0` — not an `InsufficientSamplesError`
(no such class exists anywhere in the repository). -/
theorem claim_C4_counterexample :
    calculate_srm dfC4 3 = Except.error "ZeroDivisionError" ∧
    "ZeroDivisionError" ≠ "InsufficientSamplesError" := by
  constructor
  · norm_num [calculate_srm, srmHits, srmHitForGroup, srmGroup, dfC4,
      sortedKeys, insertKey, srm_preprocssing, convert_timestamp_to_decimal,
      sampleVar, listMean, List.filter, List.filterMap]
  · decide

/-- C4 amended: when every target group fails the `min_samples` test
(the accumulated hit list is empty), `calculate_srm` surfaces an
unhandled `ZeroDivisionError` to the caller — an explicit exception,
but not the `InsufficientSamplesError` the spec names; in particular no
NaN is propagated. -/
theorem claim_C4_amended_zero_division (df : List SRow) (min_samples : ℕ)
    (h : srmHits df min_samples = []) :
    calculate_srm df min_samples = Except.error "ZeroDivisionError" := by
  unfold calculate_srm
  simp [h]

/-- Witness for the amended C4 at `dfC4`. -/
theorem claim_C4_amended_witness :
    srmHits dfC4 3 = [] ∧
    calculate_srm dfC4 3 = Except.error "ZeroDivisionError" := by
  have h : srmHits dfC4 3 = [] := by
    norm_num [srmHits, srmHitForGroup, srmGroup, dfC4, sortedKeys, insertKey,
      srm_preprocssing, convert_timestamp_to_decimal, sampleVar, listMean,
      List.filter, List.filterMap]
  exact ⟨h, claim_C4_amended_zero_division dfC4 3 h⟩

theorem sampleVar_nonneg (l : List ℚ) : 0 ≤ sampleVar l := by
  unfold sampleVar
  cases l with
  | nil => simp
  | cons x xs =>
      apply div_nonneg
      · apply List.sum_nonneg
        intro y hy
        rcases List.mem_map.mp hy with ⟨a, _, rfl⟩
        positivity
      · simp only [List.length_cons]
        push_cast
        linarith [Nat.cast_nonneg (α := ℚ) xs.length]

theorem sampleVar_of_short (l : List ℚ) (h : l.length ≤ 1) : sampleVar l = 0 := by
  cases l with
  | nil => simp [sampleVar]
  | cons x xs =>
      cases xs with
      | nil => simp [sampleVar, listMean]
      | cons y ys => simp at h

/-- The squared purge condition used by the embedding is, for a
nonnegative variance, exactly the source's real-valued condition
`mean − 1.5·std ≤ z ≤ mean + 1.5·std` with `std = √var`. -/
theorem sq_cond_iff_std_bounds (z m v : ℚ) (hv : 0 ≤ v) :
    (z - m) ^ 2 ≤ (3 / 2) ^ 2 * v ↔
      ((m : ℝ) - 3 / 2 * Real.sqrt (v : ℝ) ≤ (z : ℝ) ∧
       (z : ℝ) ≤ (m : ℝ) + 3 / 2 * Real.sqrt (v : ℝ)) := by
  have hb : (0 : ℝ) ≤ 3 / 2 * Real.sqrt (v : ℝ) := by positivity
  have hsq : ((3 : ℝ) / 2 * Real.sqrt (v : ℝ)) ^ 2 = (3 / 2) ^ 2 * (v : ℝ) := by
    rw [mul_pow, Real.sq_sqrt (by exact_mod_cast hv)]
  constructor
  · intro h
    have hc : (((z - m) ^ 2 : ℚ) : ℝ) ≤ (((3 / 2) ^ 2 * v : ℚ) : ℝ) :=
      (Rat.cast_le (K := ℝ)).mpr h
    have h' : ((z : ℝ) - (m : ℝ)) ^ 2 ≤ (3 / 2 * Real.sqrt (v : ℝ)) ^ 2 := by
      rw [hsq]
      push_cast at hc
      linarith
    obtain ⟨hl, hr⟩ := abs_le_of_sq_le_sq' h' hb
    constructor <;> linarith
  · rintro ⟨hl, hr⟩
    have h' : ((z : ℝ) - (m : ℝ)) ^ 2 ≤ (3 / 2 * Real.sqrt (v : ℝ)) ^ 2 :=
      sq_le_sq' (by linarith) (by linarith)
    rw [hsq] at h'
    have hc : (((z - m) ^ 2 : ℚ) : ℝ) ≤ (((3 / 2) ^ 2 * v : ℚ) : ℝ) := by
      push_cast
      linarith
    exact_mod_cast hc

/-- The embedded condition `var < 0.5²` is the source's `std < 0.5`. -/
theorem sqrt_lt_half_iff (v : ℚ) :
    Real.sqrt (v : ℝ) < 1 / 2 ↔ v < (1 / 2) ^ 2 := by
  rw [Real.sqrt_lt' (by norm_num : (0 : ℝ) < 1 / 2)]
  have h : ((1 : ℝ) / 2) ^ 2 = (((1 / 2 : ℚ) ^ 2 : ℚ) : ℝ) := by push_cast; ring
  rw [h, Rat.cast_lt]

/-- C5: on a series of at least two timestamps (so that the sample std
is defined), `_srm_preprocssing` first converts to decimal time; if the
std of the converted series is < 0.5 it returns the converted series
unchanged, and otherwise it returns exactly the subseries of values
within `mean ± 1.5·std`, both statistics computed once on the converted
series before any removal.  (On a series of length ≤ 1 the std is NaN,
every comparison against NaN is false, and the purge with NaN limits
returns the empty series, which the embedding reproduces.) -/
theorem claim_C5_preprocessing_single_stats (series : List Timestamp)
    (h : 2 ≤ (convert_timestamp_to_decimal series).length) :
    (Real.sqrt (sampleVar (convert_timestamp_to_decimal series) : ℝ) < 1 / 2 →
      srm_preprocssing series = convert_timestamp_to_decimal series) ∧
    (¬ Real.sqrt (sampleVar (convert_timestamp_to_decimal series) : ℝ) < 1 / 2 →
      srm_preprocssing series =
        (convert_timestamp_to_decimal series).filter
          (fun z => decide ((z - listMean (convert_timestamp_to_decimal series)) ^ 2 ≤
            (3 / 2) ^ 2 * sampleVar (convert_timestamp_to_decimal series))) ∧
      ∀ z : ℚ,
        ((z - listMean (convert_timestamp_to_decimal series)) ^ 2 ≤
            (3 / 2) ^ 2 * sampleVar (convert_timestamp_to_decimal series) ↔
          ((listMean (convert_timestamp_to_decimal series) : ℝ) -
              3 / 2 * Real.sqrt (sampleVar (convert_timestamp_to_decimal series) : ℝ) ≤ (z : ℝ) ∧
            (z : ℝ) ≤ (listMean (convert_timestamp_to_decimal series) : ℝ) +
              3 / 2 * Real.sqrt (sampleVar (convert_timestamp_to_decimal series) : ℝ)))) := by
  have hlen : ¬ (convert_timestamp_to_decimal series).length ≤ 1 := by omega
  constructor
  · intro hstd
    have hvar := (sqrt_lt_half_iff _).mp hstd
    simp only [srm_preprocssing]
    rw [if_neg hlen, if_pos hvar]
  · intro hstd
    have hvar : ¬ sampleVar (convert_timestamp_to_decimal series) < (1 / 2) ^ 2 :=
      fun hc => hstd ((sqrt_lt_half_iff _).mpr hc)
    refine ⟨?_, fun z => sq_cond_iff_std_bounds z _ _ (sampleVar_nonneg _)⟩
    simp only [srm_preprocssing]
    rw [if_neg hlen, if_neg hvar]

/-- Concrete series for the C5 witness: 07:00, 08:00, 09:00 —
variance 1, std 1 ≥ 0.5. -/
def tsC5 : List Timestamp := [⟨0, 7, 0⟩, ⟨1, 8, 0⟩, ⟨2, 9, 0⟩]

/-- Witness for C5 at `tsC5`. -/
theorem claim_C5_witness :
    2 ≤ (convert_timestamp_to_decimal tsC5).length ∧
    ((Real.sqrt (sampleVar (convert_timestamp_to_decimal tsC5) : ℝ) < 1 / 2 →
      srm_preprocssing tsC5 = convert_timestamp_to_decimal tsC5) ∧
    (¬ Real.sqrt (sampleVar (convert_timestamp_to_decimal tsC5) : ℝ) < 1 / 2 →
      srm_preprocssing tsC5 =
        (convert_timestamp_to_decimal tsC5).filter
          (fun z => decide ((z - listMean (convert_timestamp_to_decimal tsC5)) ^ 2 ≤
            (3 / 2) ^ 2 * sampleVar (convert_timestamp_to_decimal tsC5))) ∧
      ∀ z : ℚ,
        ((z - listMean (convert_timestamp_to_decimal tsC5)) ^ 2 ≤
            (3 / 2) ^ 2 * sampleVar (convert_timestamp_to_decimal tsC5) ↔
          ((listMean (convert_timestamp_to_decimal tsC5) : ℝ) -
              3 / 2 * Real.sqrt (sampleVar (convert_timestamp_to_decimal tsC5) : ℝ) ≤ (z : ℝ) ∧
            (z : ℝ) ≤ (listMean (convert_timestamp_to_decimal tsC5) : ℝ) +
              3 / 2 * Real.sqrt (sampleVar (convert_timestamp_to_decimal tsC5) : ℝ))))) := by
  refine ⟨?_, claim_C5_preprocessing_single_stats tsC5 ?_⟩ <;>
    simp [convert_timestamp_to_decimal, tsC5]

/-- Concrete series for C6: 08:00 ×4, 10:00, 20:00.  The first pass
purges 20 (mean 31/3, var 346/15); the post-purge series
[8, 8, 8, 8, 10] has mean 8.4 and var 0.8 ≥ 0.25, and 10 now lies
outside mean ± 1.5·std — a second pass would newly remove it. -/
def tsC6 : List Timestamp :=
  [⟨0, 8, 0⟩, ⟨1, 8, 0⟩, ⟨2, 8, 0⟩, ⟨3, 8, 0⟩, ⟨4, 10, 0⟩, ⟨5, 20, 0⟩]

/-- Counterexample to C6 as stated: at `tsC6` the post-purge statistics
newly qualify the value 10 for removal (the claim's hypothesis holds),
yet reapplying the same thresholding logic to the output changes it —
it removes 10 — so the output does NOT stay unchanged under a second
pass.  (The hypothesis is stated in the squared form
`(z − mean)² ≤ 1.5²·var ⟺ |z − mean| ≤ 1.5·std`.) -/
theorem claim_C6_counterexample :
    (¬ sampleVar (srm_preprocssing tsC6) < (1 / 2) ^ 2) ∧
    (∃ z ∈ srm_preprocssing tsC6,
      ¬ ((z - listMean (srm_preprocssing tsC6)) ^ 2 ≤
        (3 / 2) ^ 2 * sampleVar (srm_preprocssing tsC6))) ∧
    thresholdPass (srm_preprocssing tsC6) ≠ srm_preprocssing tsC6 := by
  have hout : srm_preprocssing tsC6 = [8, 8, 8, 8, 10] := by
    norm_num [srm_preprocssing, convert_timestamp_to_decimal, tsC6,
      sampleVar, listMean, List.filter]
  rw [hout]
  refine ⟨by norm_num [sampleVar, listMean], ⟨10, by norm_num, ?_⟩, ?_⟩
  · norm_num [sampleVar, listMean]
  · norm_num [thresholdPass, sampleVar, listMean, List.filter]

/-- C6 amended: `_srm_preprocssing` is single-pass in the sense that it
equals exactly one application of the thresholding logic to the
converted series; consequently, on every sample set whose post-purge
mean and standard deviation newly qualify further removals, reapplying
the same thresholding logic to its output DOES change the output
(the newly qualifying values are removed) — the function does not
iterate to a fixed point. -/
theorem claim_C6_amended_not_fixed_point (series : List Timestamp)
    (h1 : ¬ sampleVar (srm_preprocssing series) < (1 / 2) ^ 2)
    (h2 : ∃ z ∈ srm_preprocssing series,
      ¬ ((z - listMean (srm_preprocssing series)) ^ 2 ≤
        (3 / 2) ^ 2 * sampleVar (srm_preprocssing series))) :
    srm_preprocssing series = thresholdPass (convert_timestamp_to_decimal series) ∧
    thresholdPass (srm_preprocssing series) ≠ srm_preprocssing series := by
  refine ⟨rfl, ?_⟩
  obtain ⟨z, hz, hzp⟩ := h2
  have hlen : ¬ (srm_preprocssing series).length ≤ 1 := by
    intro hl
    exact h1 (by rw [sampleVar_of_short _ hl]; norm_num)
  unfold thresholdPass
  rw [if_neg hlen, if_neg h1]
  intro heq
  have hall := List.filter_eq_self.mp heq z hz
  exact hzp (of_decide_eq_true hall)

/-- Witness for the amended C6 at `tsC6`. -/
theorem claim_C6_amended_witness :
    (¬ sampleVar (srm_preprocssing tsC6) < (1 / 2) ^ 2) ∧
    (∃ z ∈ srm_preprocssing tsC6,
      ¬ ((z - listMean (srm_preprocssing tsC6)) ^ 2 ≤
        (3 / 2) ^ 2 * sampleVar (srm_preprocssing tsC6))) ∧
    (srm_preprocssing tsC6 = thresholdPass (convert_timestamp_to_decimal tsC6) ∧
      thresholdPass (srm_preprocssing tsC6) ≠ srm_preprocssing tsC6) := by
  have hout : srm_preprocssing tsC6 = [8, 8, 8, 8, 10] := by
    norm_num [srm_preprocssing, convert_timestamp_to_decimal, tsC6,
      sampleVar, listMean, List.filter]
  have h1 : ¬ sampleVar (srm_preprocssing tsC6) < (1 / 2) ^ 2 := by
    rw [hout]; norm_num [sampleVar, listMean]
  have h2 : ∃ z ∈ srm_preprocssing tsC6,
      ¬ ((z - listMean (srm_preprocssing tsC6)) ^ 2 ≤
        (3 / 2) ^ 2 * sampleVar (srm_preprocssing tsC6)) := by
    refine ⟨10, ?_, ?_⟩ <;> rw [hout]
    · norm_num
    · norm_num [sampleVar, listMean]
  exact ⟨h1, h2, claim_C6_amended_not_fixed_point tsC6 h1 h2⟩

theorem insertKey_of_forall_lt {k : ℕ} {l : List ℕ} (h : ∀ y ∈ l, k < y) :
    insertKey k l = k :: l := by
  cases l with
  | nil => rfl
  | cons x xs => simp [insertKey, h x (List.mem_cons_self x xs)]

theorem sorted_insertKey {l : List ℕ} (k : ℕ) (h : List.Sorted (· < ·) l) :
    List.Sorted (· < ·) (insertKey k l) := by
  induction l with
  | nil => simp [insertKey]
  | cons x xs ih =>
      rw [List.sorted_cons] at h
      by_cases h1 : k < x
      · simp only [insertKey, if_pos h1]
        rw [List.sorted_cons]
        refine ⟨?_, List.sorted_cons.mpr h⟩
        intro b hb
        rcases List.mem_cons.mp hb with rfl | hb2
        · exact h1
        · exact h1.trans (h.1 b hb2)
      · by_cases h2 : k = x
        · simp only [insertKey, if_neg h1, if_pos h2]
          exact List.sorted_cons.mpr h
        · simp only [insertKey, if_neg h1, if_neg h2]
          rw [List.sorted_cons]
          refine ⟨?_, ih h.2⟩
          intro b hb
          rcases mem_insertKey.mp hb with rfl | hb2
          · omega
          · exact h.1 b hb2

theorem sorted_sortedKeys (l : List ℕ) : List.Sorted (· < ·) (sortedKeys l) := by
  induction l with
  | nil => simp [sortedKeys]
  | cons x xs ih => exact sorted_insertKey x ih

theorem nodup_sortedKeys (l : List ℕ) : (sortedKeys l).Nodup :=
  (sorted_sortedKeys l).nodup

theorem filter_insertKey (p : ℕ → Bool) {k : ℕ} {l : List ℕ}
    (h : List.Sorted (· < ·) l) :
    (insertKey k l).filter p =
      if p k then insertKey k (l.filter p) else l.filter p := by
  induction l with
  | nil => cases hp : p k <;> simp [insertKey, List.filter, hp]
  | cons x xs ih =>
      rw [List.sorted_cons] at h
      rcases Nat.lt_trichotomy k x with h1 | h1 | h1
      · simp only [insertKey, if_pos h1]
        cases hp : p k with
        | false => simp [List.filter_cons, hp]
        | true =>
            have hall : ∀ y ∈ (x :: xs).filter p, k < y := by
              intro y hy
              rcases List.mem_cons.mp (List.mem_of_mem_filter hy) with rfl | hy2
              · exact h1
              · exact h1.trans (h.1 y hy2)
            rw [if_pos rfl, insertKey_of_forall_lt hall]
            simp [List.filter_cons, hp]
      · subst h1
        have he : insertKey k (k :: xs) = k :: xs := by
          simp [insertKey, lt_irrefl]
        rw [he]
        cases hp : p k with
        | false => simp [List.filter_cons, hp]
        | true =>
            have he2 : insertKey k (k :: xs.filter p) = k :: xs.filter p := by
              simp [insertKey, lt_irrefl]
            simp [List.filter_cons, hp, he2]
      · have h1' : ¬ k < x := by omega
        have h2' : ¬ k = x := by omega
        simp only [insertKey, if_neg h1', if_neg h2', List.filter_cons]
        rw [ih h.2]
        cases hp : p x <;> cases hpk : p k <;>
          simp [hp, hpk, insertKey, h1', h2']

theorem sortedKeys_filter (p : ℕ → Bool) (l : List ℕ) :
    sortedKeys (l.filter p) = (sortedKeys l).filter p := by
  induction l with
  | nil => rfl
  | cons x xs ih =>
      have hr := filter_insertKey p (k := x) (sorted_sortedKeys xs)
      cases hp : p x with
      | true =>
          have hl : (x :: xs).filter p = x :: xs.filter p := by
            simp [List.filter_cons, hp]
          show sortedKeys ((x :: xs).filter p) = (insertKey x (sortedKeys xs)).filter p
          rw [hl]
          show insertKey x (sortedKeys (xs.filter p)) = _
          rw [ih, hr, if_pos hp]
      | false =>
          have hl : (x :: xs).filter p = xs.filter p := by
            simp [List.filter_cons, hp]
          show sortedKeys ((x :: xs).filter p) = (insertKey x (sortedKeys xs)).filter p
          rw [hl, ih, hr, if_neg (by simp [hp])]

theorem filterMap_filter_ne_of_none {g : ℕ → Option ℕ} {k : ℕ}
    (hg : g k = none) (l : List ℕ) :
    (l.filter (fun a => decide (a ≠ k))).filterMap g = l.filterMap g := by
  simp only [ne_eq, decide_not]
  induction l with
  | nil => rfl
  | cons x xs ih =>
      by_cases hx : x = k
      · simp [List.filter_cons, hx, List.filterMap_cons, hg, ih]
      · cases hgx : g x <;>
          simp [List.filter_cons, hx, List.filterMap_cons, hgx, ih]

theorem filterMap_filter_ne_of_some {g : ℕ → Option ℕ} {k h : ℕ}
    (hg : g k = some h) {l : List ℕ} (hn : l.Nodup) (hk : k ∈ l) :
    (l.filterMap g).length =
      ((l.filter (fun a => decide (a ≠ k))).filterMap g).length + 1 ∧
    (l.filterMap g).sum =
      h + ((l.filter (fun a => decide (a ≠ k))).filterMap g).sum := by
  simp only [ne_eq, decide_not]
  induction l with
  | nil => cases hk
  | cons x xs ih =>
      rw [List.nodup_cons] at hn
      by_cases hx : x = k
      · have hknotin : k ∉ xs := hx ▸ hn.1
        have hfilter : xs.filter (fun a => !decide (a = k)) = xs := by
          apply List.filter_eq_self.mpr
          intro a ha
          simp only [Bool.not_eq_true', decide_eq_false_iff_not]
          exact fun he => hknotin (he ▸ ha)
        constructor
        · simp [List.filter_cons, hx, List.filterMap_cons, hg, hfilter]
        · simp [List.filter_cons, hx, List.filterMap_cons, hg, hfilter]
      · have hk2 : k ∈ xs := by
          rcases List.mem_cons.mp hk with heq | h2
          · exact absurd heq.symm hx
          · exact h2
        have hih := ih hn.2 hk2
        refine ⟨?_, ?_⟩ <;>
          · cases hgx : g x <;>
              simp [List.filter_cons, hx, List.filterMap_cons, hgx,
                hih.1, hih.2] <;>
              omega

theorem map_target_filter_ne (df : List SRow) (k : ℕ) :
    (df.filter (fun r => decide (r.target ≠ k))).map (fun r => r.target) =
      (df.map (fun r => r.target)).filter (fun a => decide (a ≠ k)) := by
  simp only [ne_eq, decide_not]
  induction df with
  | nil => rfl
  | cons r rs ih =>
      by_cases hr : r.target = k <;>
        simp [List.filter_cons, List.map_cons, hr, ih]

theorem srmGroup_filter_ne {j k : ℕ} (hjk : j ≠ k) (df : List SRow) :
    srmGroup (df.filter (fun r => decide (r.target ≠ k))) j = srmGroup df j := by
  unfold srmGroup
  rw [List.filter_filter]
  congr 1
  apply List.filter_congr
  intro a _
  by_cases ha : a.target = j
  · simp [ha, hjk, Ne.symm hjk]
  · simp [ha]

theorem srmHitForGroup_filter_ne {j k : ℕ} (hjk : j ≠ k) (df : List SRow)
    (min_samples : ℕ) :
    srmHitForGroup (df.filter (fun r => decide (r.target ≠ k))) min_samples j =
      srmHitForGroup df min_samples j := by
  unfold srmHitForGroup
  rw [srmGroup_filter_ne hjk]

theorem srmHits_filter_ne (df : List SRow) (min_samples k : ℕ) :
    srmHits (df.filter (fun r => decide (r.target ≠ k))) min_samples =
      ((sortedKeys (df.map (fun r => r.target))).filter
        (fun a => decide (a ≠ k))).filterMap (srmHitForGroup df min_samples) := by
  unfold srmHits
  rw [map_target_filter_ne, sortedKeys_filter]
  apply List.filterMap_congr
  intro a ha
  exact srmHitForGroup_filter_ne
    (of_decide_eq_true ((List.mem_filter.mp ha).2)) df min_samples

/-- C7: with `1 ≤ min_samples` and `k` a target present in `df`, a
group whose purged sample count is exactly `min_samples − 1` contributes
neither a hit count nor a divisor term — the accumulated hit list, and
hence the SRM score, is identical to that of the frame with the group's
rows removed; at exactly `min_samples` the group contributes exactly one
divisor term (list length + 1) and its hit count to the sum. -/
theorem claim_C7_min_samples_boundary (df : List SRow) (min_samples k : ℕ)
    (hms : 1 ≤ min_samples)
    (hk : k ∈ df.map (fun r => r.target)) :
    ((srm_preprocssing (srmGroup df k)).length = min_samples - 1 →
      srmHits (df.filter (fun r => decide (r.target ≠ k))) min_samples =
        srmHits df min_samples ∧
      calculate_srm (df.filter (fun r => decide (r.target ≠ k))) min_samples =
        calculate_srm df min_samples) ∧
    ((srm_preprocssing (srmGroup df k)).length = min_samples →
      (srmHits df min_samples).length =
        (srmHits (df.filter (fun r => decide (r.target ≠ k))) min_samples).length + 1 ∧
      (srmHits df min_samples).sum =
        calculate_srm_hit (srm_preprocssing (srmGroup df k))
          (listMean (srm_preprocssing (srmGroup df k)) - 45 / 60)
          (listMean (srm_preprocssing (srmGroup df k)) + 45 / 60) +
        (srmHits (df.filter (fun r => decide (r.target ≠ k))) min_samples).sum) := by
  constructor
  · intro hc
    have hg : srmHitForGroup df min_samples k = none := by
      unfold srmHitForGroup
      rw [if_neg (by omega)]
    have h1 : srmHits (df.filter (fun r => decide (r.target ≠ k))) min_samples =
        srmHits df min_samples := by
      rw [srmHits_filter_ne]
      unfold srmHits
      exact filterMap_filter_ne_of_none hg _
    refine ⟨h1, ?_⟩
    unfold calculate_srm
    rw [h1]
  · intro hc
    have hg : srmHitForGroup df min_samples k =
        some (calculate_srm_hit (srm_preprocssing (srmGroup df k))
          (listMean (srm_preprocssing (srmGroup df k)) - 45 / 60)
          (listMean (srm_preprocssing (srmGroup df k)) + 45 / 60)) := by
      unfold srmHitForGroup
      rw [if_pos (by omega)]
    have hsplit := filterMap_filter_ne_of_some hg
      (nodup_sortedKeys (df.map (fun r => r.target))) (mem_sortedKeys.mpr hk)
    rw [srmHits_filter_ne]
    unfold srmHits
    exact hsplit

/-- Input for the C7 witness: target 0 has three identical samples at
08:00 (purged count 3 = `min_samples`, qualifying), target 1 has a
single sample (purged count 0 after the NaN purge). -/
def dfC7 : List SRow :=
  [⟨0, 0, ⟨0, 8, 0⟩⟩, ⟨0, 0, ⟨1, 8, 0⟩⟩, ⟨0, 0, ⟨2, 8, 0⟩⟩,
   ⟨0, 1, ⟨0, 12, 0⟩⟩]

/-- Witness for C7 at `dfC7`, `min_samples = 3`, target `k = 0`. -/
theorem claim_C7_witness :
    1 ≤ 3 ∧ 0 ∈ dfC7.map (fun r => r.target) ∧
    (((srm_preprocssing (srmGroup dfC7 0)).length = 3 - 1 →
      srmHits (dfC7.filter (fun r => decide (r.target ≠ 0))) 3 =
        srmHits dfC7 3 ∧
      calculate_srm (dfC7.filter (fun r => decide (r.target ≠ 0))) 3 =
        calculate_srm dfC7 3) ∧
    ((srm_preprocssing (srmGroup dfC7 0)).length = 3 →
      (srmHits dfC7 3).length =
        (srmHits (dfC7.filter (fun r => decide (r.target ≠ 0))) 3).length + 1 ∧
      (srmHits dfC7 3).sum =
        calculate_srm_hit (srm_preprocssing (srmGroup dfC7 0))
          (listMean (srm_preprocssing (srmGroup dfC7 0)) - 45 / 60)
          (listMean (srm_preprocssing (srmGroup dfC7 0)) + 45 / 60) +
        (srmHits (dfC7.filter (fun r => decide (r.target ≠ 0))) 3).sum)) := by
  refine ⟨by decide, by decide, claim_C7_min_samples_boundary dfC7 3 0 (by decide) (by decide)⟩

theorem srm_preprocssing_length_le (ts : List Timestamp) :
    (srm_preprocssing ts).length ≤ ts.length := by
  simp only [srm_preprocssing]
  by_cases h1 : (convert_timestamp_to_decimal ts).length ≤ 1
  · simp [h1]
  · rw [if_neg h1]
    by_cases h2 : sampleVar (convert_timestamp_to_decimal ts) < (1 / 2) ^ 2
    · rw [if_pos h2]
      simp [convert_timestamp_to_decimal]
    · rw [if_neg h2]
      calc ((convert_timestamp_to_decimal ts).filter _).length
          ≤ (convert_timestamp_to_decimal ts).length := List.length_filter_le _ _
        _ = ts.length := by simp [convert_timestamp_to_decimal]

/-- Input for the C8 counterexample: one target with eight identical
samples at 08:00 — std 0 skips the purge, all eight samples are hits,
and the aggregate SRM is 8 > 7. -/
def dfC8 : List SRow :=
  [⟨0, 0, ⟨0, 8, 0⟩⟩, ⟨0, 0, ⟨1, 8, 0⟩⟩, ⟨0, 0, ⟨2, 8, 0⟩⟩, ⟨0, 0, ⟨3, 8, 0⟩⟩,
   ⟨0, 0, ⟨4, 8, 0⟩⟩, ⟨0, 0, ⟨5, 8, 0⟩⟩, ⟨0, 0, ⟨6, 8, 0⟩⟩, ⟨0, 0, ⟨7, 8, 0⟩⟩]

/-- Counterexample to C8 as stated: nothing bounds a target's sample
count by 7, so `calculate_srm` can return more than 7 — here 8. -/
theorem claim_C8_counterexample :
    calculate_srm dfC8 3 = Except.ok 8 ∧ ¬ ((8 : ℚ) ≤ 7) := by
  constructor
  · norm_num [calculate_srm, srmHits, srmHitForGroup, srmGroup, dfC8,
      sortedKeys, insertKey, srm_preprocssing, convert_timestamp_to_decimal,
      sampleVar, listMean, calculate_srm_hit, List.filter, List.filterMap]
  · norm_num

/-- C8 amended: whenever `calculate_srm` returns a value, the score is
nonnegative, and it is at most 7 provided every target group of the
input has at most 7 samples (as is the case for at most one event per
target per day inside a 7-day window); without that proviso the score
is only bounded by the largest group size, and can exceed 7. -/
theorem claim_C8_amended_srm_range (df : List SRow) (min_samples : ℕ) (q : ℚ)
    (hq : calculate_srm df min_samples = Except.ok q) :
    0 ≤ q ∧
    ((∀ k, (df.filter (fun r => decide (r.target = k))).length ≤ 7) → q ≤ 7) := by
  simp only [calculate_srm] at hq
  by_cases hz : (srmHits df min_samples).length = 0
  · simp [hz] at hq
  · rw [if_neg hz] at hq
    have hq' : (((srmHits df min_samples).map (fun h : ℕ => (h : ℚ))).sum) /
        ((srmHits df min_samples).length : ℚ) = q := by
      injection hq
    have hlen : 0 < ((srmHits df min_samples).length : ℚ) := by
      exact_mod_cast Nat.pos_of_ne_zero hz
    constructor
    · rw [← hq']
      apply div_nonneg _ (le_of_lt hlen)
      apply List.sum_nonneg
      intro x hx
      rcases List.mem_map.mp hx with ⟨n, _, rfl⟩
      positivity
    · intro h7
      rw [← hq', div_le_iff₀ hlen]
      have hbound : ∀ x ∈ (srmHits df min_samples).map (fun h : ℕ => (h : ℚ)),
          x ≤ 7 := by
        intro x hx
        rcases List.mem_map.mp hx with ⟨n, hn, rfl⟩
        have hn7 : n ≤ 7 := by
          unfold srmHits at hn
          rcases List.mem_filterMap.mp hn with ⟨a, _, hga⟩
          simp only [srmHitForGroup] at hga
          by_cases hc : min_samples ≤ (srm_preprocssing (srmGroup df a)).length
          · rw [if_pos hc] at hga
            have hn_eq := (Option.some.inj hga).symm
            calc n ≤ (srm_preprocssing (srmGroup df a)).length := by
                  rw [hn_eq]
                  exact List.length_filter_le _ _
              _ ≤ (srmGroup df a).length := srm_preprocssing_length_le _
              _ = (df.filter (fun r => decide (r.target = a))).length := by
                  simp [srmGroup]
              _ ≤ 7 := h7 a
          · rw [if_neg hc] at hga
            cases hga
        exact_mod_cast hn7
      have hsum := List.sum_le_card_nsmul
        ((srmHits df min_samples).map (fun h : ℕ => (h : ℚ))) 7 hbound
      rw [List.length_map, nsmul_eq_mul] at hsum
      linarith

/-- Witness for the amended C8 at `dfC1` (SRM value 5, all group sizes
at most 7). -/
theorem claim_C8_amended_witness :
    calculate_srm dfC1 3 = Except.ok 5 ∧
    (0 ≤ (5 : ℚ) ∧
      ((∀ k, (dfC1.filter (fun r => decide (r.target = k))).length ≤ 7) →
        (5 : ℚ) ≤ 7)) := by
  have h : calculate_srm dfC1 3 = Except.ok 5 := by
    norm_num [calculate_srm, srmHits, srmHitForGroup, srmGroup, dfC1,
      sortedKeys, insertKey, srm_preprocssing, convert_timestamp_to_decimal,
      sampleVar, listMean, calculate_srm_hit, List.filter, List.filterMap]
  exact ⟨h, claim_C8_amended_srm_range dfC1 3 5 h⟩

end Anvil
